import Mathlib

/-!
Shallow embedding of the xain-fl coordinator participant registry
(`src/coordinator/client.rs`) and of the xaynet-sdk participant phase
state machine (`rust/xaynet-sdk/src/state_machine/phase.rs`), together
with the default selector (`rust/src/bin/coordinator.rs`), used to check
the natural-language specification against the code.

Rust `HashMap<ClientId, ActiveClient>` is modelled as an association
list with unique keys maintained by the operations; `HashSet<ClientId>`
as a `List ClientId`; `tokio::sync::mpsc` bounded channels by their
observable `try_send` behaviour (a pending queue plus a closed flag);
`Duration` by a `Nat` number of seconds.
-/

/-- ClientId: opaque unique identifier (`Uuid` in the source), modelled as `Nat`. -/
abbrev ClientId := Nat

/-- Modelled from the spec: the `ClientState` enum lives in
`src/coordinator/state_machine.rs`, which is not part of the sources at
hand; its variants are those of §3 of the spec (ParticipantState):
Waiting, Selected, Done, Ignored, DoneAndInactive, Unknown. -/
inductive ClientState where
  | Waiting
  | Selected
  | Ignored
  | Done
  | DoneAndInactive
  | Unknown
  deriving DecidableEq, Repr

/-- Observable state of a bounded `mpsc::channel::<Duration>(10)` reset
channel: either open with a queue of pending reset timeouts, or closed
(receiver dropped). -/
inductive InboxState where
  | active (pending : List Nat)
  | closed
  deriving DecidableEq, Repr

/-- Capacity of the heartbeat reset channel (`mpsc::channel::<Duration>(10)`). -/
def RESET_CHANNEL_CAPACITY : Nat := 10

/-- HEARTBEAT_TIMEOUT constant (10 seconds). -/
def HEARTBEAT_TIMEOUT : Nat := 10

/-- An active client: carries the sender side of its heartbeat reset
channel (field `heartbeat_reset` in the source). -/
structure ActiveClient where
  heartbeat_reset : InboxState
  deriving DecidableEq, Repr

/-- Modelled from the spec: `HeartBeatTimer` lives in
`src/coordinator/heartbeat.rs`, absent from the sources at hand; per §4.1
it is created from the client id, the nominal timeout, an expiration sink
and the reset inbox.  Only its identity matters here. -/
structure HeartBeatTimer where
  client : ClientId
  timeout : Nat
  deriving DecidableEq, Repr

/-- Association-list model of `HashMap<ClientId, ActiveClient>`. -/
abbrev ClientMap := List (ClientId × ActiveClient)

/-- Key membership in a client map. -/
def memA : ClientMap → ClientId → Bool
  | [], _ => false
  | kv :: tl, k => kv.1 == k || memA tl k

/-- Lookup in a client map (`HashMap::get`). -/
def lookupA : ClientMap → ClientId → Option ActiveClient
  | [], _ => none
  | kv :: tl, k => if kv.1 == k then some kv.2 else lookupA tl k

/-- Removal of a key (`HashMap::remove`, key side). -/
def eraseA : ClientMap → ClientId → ClientMap
  | [], _ => []
  | kv :: tl, k => if kv.1 == k then eraseA tl k else kv :: eraseA tl k

/-- Insertion (`HashMap::insert`); replaces any previous binding. -/
def insertA (m : ClientMap) (k : ClientId) (v : ActiveClient) : ClientMap :=
  (k, v) :: eraseA m k

/-- Update the value bound to a key in place, keys unchanged
(mutation through `HashMap::get_mut`). -/
def updateA : ClientMap → ClientId → ActiveClient → ClientMap
  | [], _, _ => []
  | kv :: tl, k, v => if kv.1 == k then (k, v) :: updateA tl k v else kv :: updateA tl k v

/-- The registry `Clients`: one partition per lifecycle state, plus the
inactive set.  The `heartbeat_expirations_tx` fan-in sender carries no
observable state and is omitted. -/
structure Clients where
  waiting : ClientMap
  selected : ClientMap
  ignored : ClientMap
  done : ClientMap
  done_and_inactive : List ClientId
  deriving DecidableEq, Repr

namespace Clients

/-- Clients::new_active_client: fresh reset channel (capacity 10, empty)
and a fresh heartbeat timer with the standard timeout. -/
def new_active_client (_c : Clients) (id : ClientId) : ActiveClient × HeartBeatTimer :=
  (⟨InboxState.active []⟩, ⟨id, HEARTBEAT_TIMEOUT⟩)

/-- Clients::get_state: waiting, then selected, then ignored, then done,
then done_and_inactive, else Unknown. -/
def get_state (c : Clients) (id : ClientId) : ClientState :=
  if memA c.waiting id then ClientState.Waiting
  else if memA c.selected id then ClientState.Selected
  else if memA c.ignored id then ClientState.Ignored
  else if memA c.done id then ClientState.Done
  else if c.done_and_inactive.contains id then ClientState.DoneAndInactive
  else ClientState.Unknown

/-- Clients::contains. -/
def contains (c : Clients) (id : ClientId) : Bool :=
  c.get_state id != ClientState.Unknown

/-- Clients::is_active. -/
def is_active (c : Clients) (id : ClientId) : Bool :=
  (c.get_state id != ClientState.Unknown) && (c.get_state id != ClientState.DoneAndInactive)

/-- Clients::is_inactive: looks at the `done_and_inactive` set directly. -/
def is_inactive (c : Clients) (id : ClientId) : Bool :=
  c.done_and_inactive.contains id

/-- Clients::get_active_mut, lookup part: waiting, selected, ignored, done
in this order. -/
def get_active (c : Clients) (id : ClientId) : Option ActiveClient :=
  (lookupA c.waiting id).orElse fun _ =>
    (lookupA c.selected id).orElse fun _ =>
      (lookupA c.ignored id).orElse fun _ =>
        lookupA c.done id

/-- Clients::remove_active: remove from the first of waiting, selected,
ignored, done that holds the id, returning the removed client. -/
def remove_active (c : Clients) (id : ClientId) : Option (ActiveClient × Clients) :=
  match lookupA c.waiting id with
  | some a => some (a, { c with waiting := eraseA c.waiting id })
  | none =>
    match lookupA c.selected id with
    | some a => some (a, { c with selected := eraseA c.selected id })
    | none =>
      match lookupA c.ignored id with
      | some a => some (a, { c with ignored := eraseA c.ignored id })
      | none =>
        match lookupA c.done id with
        | some a => some (a, { c with done := eraseA c.done id })
        | none => none

/-- Clients::remove_inactive. -/
def remove_inactive (c : Clients) (id : ClientId) : Clients :=
  { c with done_and_inactive := c.done_and_inactive.erase id }

end Clients

/-- Error `InvalidClientStateError(current, new)`. -/
structure InvalidClientStateError where
  current : ClientState
  new : ClientState
  deriving DecidableEq, Repr

/-- Outcome of `Clients::set_state`: `ok` mirrors `Ok(Option<HeartBeatTimer>)`
together with the mutated registry, `err` mirrors the `Err` return (the
registry is returned unchanged by the code on that path), and `panic`
mirrors a failed `assert!` / `unwrap` / `unreachable!`. -/
inductive SetStateResult where
  | ok (c : Clients) (timer : Option HeartBeatTimer)
  | err (e : InvalidClientStateError) (c : Clients)
  | panic
  deriving DecidableEq, Repr

/-- Predicate `is_valid_transition` from `client.rs`: the six edges of the
§3 DAG. -/
def is_valid_transition (current_state new_state : ClientState) : Bool :=
  match current_state, new_state with
  | ClientState.Waiting, ClientState.Selected => true
  | ClientState.Selected, ClientState.Done => true
  | ClientState.Selected, ClientState.Ignored => true
  | ClientState.Done, ClientState.Ignored => true
  | ClientState.Done, ClientState.DoneAndInactive => true
  | ClientState.DoneAndInactive, ClientState.Ignored => true
  | _, _ => false

namespace Clients

/-- Tail of `Clients::set_state` after the client has been extracted: the
two trailing asserts and the insertion into the partition named by
`new_state`. -/
def set_state_insert (c : Clients) (id : ClientId) (new_state : ClientState)
    (client : ActiveClient) (timer : Option HeartBeatTimer) : SetStateResult :=
  if new_state = ClientState.DoneAndInactive then SetStateResult.panic
  else if new_state = ClientState.Unknown then SetStateResult.panic
  else
    match new_state with
    | ClientState.Waiting => SetStateResult.ok { c with waiting := insertA c.waiting id client } timer
    | ClientState.Selected => SetStateResult.ok { c with selected := insertA c.selected id client } timer
    | ClientState.Done => SetStateResult.ok { c with done := insertA c.done id client } timer
    | ClientState.Ignored => SetStateResult.ok { c with ignored := insertA c.ignored id client } timer
    | _ => SetStateResult.panic

/-- Clients::set_state, exactly as written in `client.rs`, including the
call `is_valid_transition(current_state, Selected)` on its first check
(the literal code, which ignores `new_state` there), the `assert!`
statements (modelled as `panic`) and the `unwrap` on `remove_active`. -/
def set_state (c : Clients) (id : ClientId) (new_state : ClientState) : SetStateResult :=
  let current_state := c.get_state id
  if is_valid_transition current_state ClientState.Selected then
    if c.contains id then
      if new_state = ClientState.DoneAndInactive then
        if c.is_active id then
          match c.remove_active id with
          | none => SetStateResult.panic
          | some (_a, c1) =>
            SetStateResult.ok { c1 with done_and_inactive := c1.done_and_inactive.insert id } none
        else SetStateResult.panic
      else
        if c.is_inactive id then
          let c1 := c.remove_inactive id
          let (client, new_timer) := c1.new_active_client id
          set_state_insert c1 id new_state client (some new_timer)
        else
          if c.is_active id then
            match c.remove_active id with
            | none => SetStateResult.panic
            | some (client, c1) => set_state_insert c1 id new_state client none
          else SetStateResult.panic
    else SetStateResult.panic
  else SetStateResult.err ⟨current_state, new_state⟩ c

end Clients

/-- Error enum `HeartBeatResetError`. -/
inductive HeartBeatResetError where
  | Expired
  | ClientNotFound
  | BackPressure
  deriving DecidableEq, Repr

/-- ActiveClient::reset_heartbeat: `try_send(timeout)` on the bounded
reset channel; Full maps to BackPressure, Closed to Expired. -/
def ActiveClient.reset_heartbeat (a : ActiveClient) (timeout : Nat) :
    Except HeartBeatResetError ActiveClient :=
  match a.heartbeat_reset with
  | InboxState.closed => Except.error HeartBeatResetError.Expired
  | InboxState.active pending =>
    if RESET_CHANNEL_CAPACITY ≤ pending.length then
      Except.error HeartBeatResetError.BackPressure
    else
      Except.ok ⟨InboxState.active (pending ++ [timeout])⟩

namespace Clients

/-- Write an updated client back to whichever partition
`get_active_mut` found it in (waiting, selected, ignored, done order). -/
def update_active (c : Clients) (id : ClientId) (a : ActiveClient) : Clients :=
  if memA c.waiting id then { c with waiting := updateA c.waiting id a }
  else if memA c.selected id then { c with selected := updateA c.selected id a }
  else if memA c.ignored id then { c with ignored := updateA c.ignored id a }
  else { c with done := updateA c.done id a }

/-- Clients::reset_heartbeat: `get_active_mut(id).ok_or(ClientNotFound)?`
then the client-level reset; the pair carries the registry after the call
(unchanged on every error path). -/
def reset_heartbeat (c : Clients) (id : ClientId) (timeout : Nat) :
    Except HeartBeatResetError Unit × Clients :=
  match c.get_active id with
  | none => (Except.error HeartBeatResetError.ClientNotFound, c)
  | some a =>
    match a.reset_heartbeat timeout with
    | Except.error e => (Except.error e, c)
    | Except.ok a1 => (Except.ok (), c.update_active id a1)

/-- Number of the five partitions that hold a given id. -/
def stateCount (c : Clients) (id : ClientId) : Nat :=
  (memA c.waiting id).toNat + (memA c.selected id).toNat + (memA c.ignored id).toNat +
  (memA c.done id).toNat + (c.done_and_inactive.contains id).toNat

/-- Invariant I1: every id is in at most one partition. -/
def PartitionsDisjoint (c : Clients) : Prop :=
  ∀ id : ClientId, c.stateCount id ≤ 1

end Clients

/-- Registry operations for invariant preservation over sequences. -/
inductive RegistryOp where
  | setState (id : ClientId) (new_state : ClientState)
  | resetHeartbeat (id : ClientId) (timeout : Nat)
  deriving DecidableEq, Repr

/-- Apply one registry operation; `none` when the code panics. An `Err`
return leaves the registry as the code left it (unchanged). -/
def applyOp (c : Clients) (op : RegistryOp) : Option Clients :=
  match op with
  | RegistryOp.setState id ns =>
    match c.set_state id ns with
    | SetStateResult.ok c1 _ => some c1
    | SetStateResult.err _ c1 => some c1
    | SetStateResult.panic => none
  | RegistryOp.resetHeartbeat id t => some (c.reset_heartbeat id t).2

/-- Apply a sequence of registry operations. -/
def applySeq (c : Clients) : List RegistryOp → Option Clients
  | [] => some c
  | op :: rest =>
    match applyOp c op with
    | none => none
    | some c1 => applySeq c1 rest

/-!
Default selector `RandomSelector` from `rust/src/bin/coordinator.rs`:
`waiting.choose_multiple(&mut rand::thread_rng(), min_count)`.
-/

/-- Modelled from the spec: `IteratorRandom::choose_multiple` from the
external `rand` crate — reservoir sampling.  The first `amount` elements
fill the reservoir; each later element at position `i` draws an index in
`0..=i` (here `rng i % (i+1)`) and replaces that slot when it falls
inside the reservoir. -/
def choose_multiple_go (rng : Nat → Nat) (amount : Nat) :
    Nat → List ClientId → List ClientId → List ClientId
  | _, buf, [] => buf
  | i, buf, x :: rest =>
    if i < amount then
      choose_multiple_go rng amount (i + 1) (buf ++ [x]) rest
    else
      let j := rng i % (i + 1)
      if j < amount then
        choose_multiple_go rng amount (i + 1) (buf.set j x) rest
      else
        choose_multiple_go rng amount (i + 1) buf rest

/-- Modelled from the spec: entry point of `choose_multiple`. -/
def choose_multiple (rng : Nat → Nat) (amount : Nat) (xs : List ClientId) : List ClientId :=
  choose_multiple_go rng amount 0 [] xs

/-- RandomSelector::select: delegates to `choose_multiple` on the waiting
iterator and ignores `_selected`. -/
def RandomSelector.select (rng : Nat → Nat) (min_count : Nat)
    (waiting : List ClientId) (_selected : List ClientId) : List ClientId :=
  choose_multiple rng min_count waiting

/-!
Participant-side phase state machine, from
`rust/xaynet-sdk/src/state_machine/phase.rs`.
-/

namespace Sdk

/-- Modelled from the spec: `RoundParameters` (defined in `xaynet-core`,
not among the sources at hand): public encryption key, random seed,
per-phase fractions and a round identifier, treated as an opaque
equality-comparable value; the fraction fields are opaque encodings. -/
structure RoundParameters where
  pk : Nat
  seed : Nat
  sum : Nat
  update : Nat
  round_id : Nat
  deriving DecidableEq, Repr

/-- Modelled from the spec: signing key pair identifying the participant. -/
structure SigningKeyPair where
  public : Nat
  secret : Nat
  deriving DecidableEq, Repr

/-- SharedState: data common to all phases.  `scalar` (an `f64`) and
`mask_config` are opaque equality-comparable encodings; `message_size`
models `MaxMessageSize::max_payload_size() : Option<usize>`. -/
structure SharedState where
  keys : SigningKeyPair
  mask_config : Nat
  scalar : Nat
  message_size : Option Nat
  round_params : RoundParameters
  deriving DecidableEq, Repr

/-- State<P>: phase-private data plus the shared block.  The source field
`private` is renamed `private_data` (`private` is reserved in Lean). -/
structure State (P : Type) where
  private_data : P
  shared : SharedState
  deriving DecidableEq, Repr

/-- State::new. -/
def State.new {P : Type} (shared : SharedState) (private_data : P) : State P :=
  ⟨private_data, shared⟩

/-- An encrypted message: `round_params.pk.encrypt(part)`.  The sealed box
is modelled by pairing the key with the plaintext. -/
structure EncryptedMessage where
  key : Nat
  plaintext : List Nat
  deriving DecidableEq, Repr

/-- Modelled from the spec: public-key encryption of one message part,
an external cryptographic primitive. -/
def encrypt (pk : Nat) (part : List Nat) : EncryptedMessage :=
  ⟨pk, part⟩

/-- Modelled from the spec: the opaque IO collaborator of §4.6
(`Box<dyn IO>`; the `IO` trait is not among the sources at hand),
as the observable protocol state of its operations:
`round_params_result` is what the next `get_round_params` call yields
(`none` models the error case), `send_failures k` tells whether the k-th
`send_message` call fails, and the remaining fields log the calls made. -/
structure IoState where
  round_params_result : Option RoundParameters
  send_failures : Nat → Bool
  sends_attempted : Nat
  sent_messages : List EncryptedMessage
  new_round_notifications : Nat

/-- IO::notify_new_round. -/
def IoState.notify_new_round (io : IoState) : IoState :=
  { io with new_round_notifications := io.new_round_notifications + 1 }

/-- IO::send_message: returns whether the call succeeded together with the
collaborator state after the call. -/
def IoState.send_message (io : IoState) (msg : EncryptedMessage) : Bool × IoState :=
  if io.send_failures io.sends_attempted then
    (false, { io with sends_attempted := io.sends_attempted + 1 })
  else
    (true, { io with
              sends_attempted := io.sends_attempted + 1,
              sent_messages := io.sent_messages ++ [msg] })

/-- Phase<P>: phase state plus the IO collaborator. -/
structure Phase (P : Type) where
  state : State P
  io : IoState

/-- Phase::new. -/
def Phase.new {P : Type} (state : State P) (io : IoState) : Phase P :=
  ⟨state, io⟩

/-- Unit payload of the NewRound phase (a unit struct in the source). -/
inductive NewRound where
  | mk
  deriving DecidableEq, Repr

/-- Modelled from the spec: private payload of the Awaiting phase (idle). -/
inductive Awaiting where
  | mk
  deriving DecidableEq, Repr

/-- Modelled from the spec: opaque private payload of the Sum phase
(`sum.rs` is not among the sources at hand). -/
structure Sum where
  data : Nat
  deriving DecidableEq, Repr

/-- Modelled from the spec: opaque private payload of the Update phase. -/
structure Update where
  data : Nat
  deriving DecidableEq, Repr

/-- Modelled from the spec: opaque private payload of the Sum2 phase. -/
structure Sum2 where
  data : Nat
  deriving DecidableEq, Repr

/-- StateMachine: the sum over the five phases. -/
inductive StateMachine where
  | newRound (p : Phase NewRound)
  | awaiting (p : Phase Awaiting)
  | sum (p : Phase Sum)
  | update (p : Phase Update)
  | sum2 (p : Phase Sum2)

/-- TransitionOutcome, the public result of one `step`. -/
inductive TransitionOutcome where
  | pending (sm : StateMachine)
  | complete (sm : StateMachine)

/-- RoundFreshness. -/
inductive RoundFreshness where
  | Outdated
  | Unknown
  | Fresh
  deriving DecidableEq, Repr

/-- Phase::check_round_freshness: on a successful fetch of different
round parameters, stores them into `state.shared.round_params` (the
mutation of `&mut self`) and reports Outdated. -/
def Phase.check_round_freshness {P : Type} (p : Phase P) : RoundFreshness × Phase P :=
  match p.io.round_params_result with
  | none => (RoundFreshness.Unknown, p)
  | some params =>
    if params = p.state.shared.round_params then
      (RoundFreshness.Fresh, p)
    else
      (RoundFreshness.Outdated,
        { p with state := { p.state with shared := { p.state.shared with round_params := params } } })

/-- Phase::step, the public step: probes round freshness, then either
returns Pending unchanged, resets to NewRound (notifying IO), or
delegates to the phase-specific `Step::step`.  The `Step` and
`Into<StateMachine>` trait bounds are passed as explicit function
arguments `stepP` and `intoSM`. -/
def Phase.step {P : Type} (stepP : Phase P → TransitionOutcome)
    (intoSM : Phase P → StateMachine) (p : Phase P) : TransitionOutcome :=
  match p.check_round_freshness with
  | (RoundFreshness.Unknown, p1) => TransitionOutcome.pending (intoSM p1)
  | (RoundFreshness.Outdated, p1) =>
    let io1 := p1.io.notify_new_round
    TransitionOutcome.complete
      (StateMachine.newRound (Phase.new (State.new p1.state.shared NewRound.mk) io1))
  | (RoundFreshness.Fresh, p1) => stepP p1

/-- Unit error struct `SendMessageError`. -/
inductive SendMessageError where
  | mk
  deriving DecidableEq, Repr

/-- Loop body of Phase::send_message over the encoder parts: each part is
encrypted with `state.shared.round_params.pk` and handed to
`io.send_message`; the first failure aborts with `SendMessageError`. -/
def Phase.send_loop {P : Type} (p : Phase P) :
    List (List Nat) → Except SendMessageError Unit × Phase P
  | [] => (Except.ok (), p)
  | part :: rest =>
    let data := encrypt p.state.shared.round_params.pk part
    let (sent, io1) := p.io.send_message data
    let p1 : Phase P := { p with io := io1 }
    if sent then p1.send_loop rest
    else (Except.error SendMessageError.mk, p1)

/-- Phase::send_message.  The `MessageEncoder` argument is modelled by
the sequence of byte chunks it yields (the encoder itself lives in
`xaynet-core`, not among the sources at hand). -/
def Phase.send_message {P : Type} (p : Phase P) (encoder : List (List Nat)) :
    Except SendMessageError Unit × Phase P :=
  p.send_loop encoder

/-- Whether `n` consecutive `send_message` calls starting at call index
`a` all succeed, given the failure schedule `fails`. -/
def sendsOkFrom (fails : Nat → Bool) : Nat → Nat → Bool
  | _, 0 => true
  | a, Nat.succ n => !(fails a) && sendsOkFrom fails (a + 1) n

/-- Whether the next `n` calls to `send_message` on this collaborator all
succeed. -/
def IoState.sendsOk (io : IoState) (n : Nat) : Bool :=
  sendsOkFrom io.send_failures io.sends_attempted n

end Sdk

/-! Basic lemmas about the association-list model of `HashMap`. -/

theorem lookupA_isSome_eq_memA (m : ClientMap) (k : ClientId) :
    (lookupA m k).isSome = memA m k := by
  induction m with
  | nil => rfl
  | cons kv tl ih =>
    by_cases h : kv.1 = k <;> simp [lookupA, memA, h, ih]

theorem lookupA_eq_some_of_memA {m : ClientMap} {k : ClientId} (h : memA m k = true) :
    ∃ a, lookupA m k = some a := by
  have hs : (lookupA m k).isSome = true := by rw [lookupA_isSome_eq_memA]; exact h
  exact Option.isSome_iff_exists.mp hs

theorem lookupA_eq_none_of_not_memA {m : ClientMap} {k : ClientId} (h : memA m k = false) :
    lookupA m k = none := by
  have hs : (lookupA m k).isSome = false := by rw [lookupA_isSome_eq_memA]; exact h
  exact Option.not_isSome_iff_eq_none.mp (by simp [hs])

theorem memA_eraseA_self (m : ClientMap) (k : ClientId) : memA (eraseA m k) k = false := by
  induction m with
  | nil => rfl
  | cons kv tl ih =>
    by_cases h : kv.1 = k <;> simp [eraseA, memA, h, ih]

theorem memA_eraseA_ne {j k : ClientId} (m : ClientMap) (h : j ≠ k) :
    memA (eraseA m k) j = memA m j := by
  induction m with
  | nil => rfl
  | cons kv tl ih =>
    have hkj : ¬ k = j := fun e => h e.symm
    by_cases hk : kv.1 = k
    · simp [eraseA, memA, hk, hkj, ih]
    · simp [eraseA, memA, hk, ih]

theorem memA_insertA_self (m : ClientMap) (k : ClientId) (v : ActiveClient) :
    memA (insertA m k v) k = true := by
  simp [insertA, memA]

theorem memA_insertA_ne {j k : ClientId} (m : ClientMap) (v : ActiveClient) (h : j ≠ k) :
    memA (insertA m k v) j = memA m j := by
  have : k ≠ j := fun e => h e.symm
  simp [insertA, memA, this, memA_eraseA_ne m h]

theorem memA_updateA (m : ClientMap) (k : ClientId) (v : ActiveClient) (j : ClientId) :
    memA (updateA m k v) j = memA m j := by
  induction m with
  | nil => rfl
  | cons kv tl ih =>
    by_cases h : kv.1 = k <;> simp [updateA, memA, h, ih]

theorem contains_insert_self (l : List ClientId) (k : ClientId) :
    (l.insert k).contains k = true := by
  simp

theorem contains_insert_ne (l : List ClientId) {j k : ClientId} (h : j ≠ k) :
    (l.insert k).contains j = l.contains j := by
  simp [List.mem_insert_iff, h]

/-! Lemmas connecting `get_state` with the partitions. -/

theorem is_valid_to_selected_iff (s : ClientState) :
    is_valid_transition s ClientState.Selected = true ↔ s = ClientState.Waiting := by
  cases s <;> decide

theorem get_state_eq_waiting_iff (c : Clients) (id : ClientId) :
    c.get_state id = ClientState.Waiting ↔ memA c.waiting id = true := by
  cases hb : memA c.waiting id
  · have hne : ¬ c.get_state id = ClientState.Waiting := by
      simp only [Clients.get_state, hb, Bool.false_eq_true, if_false]
      split_ifs <;> simp
    simp [hne]
  · simp [Clients.get_state, hb]

/-- A client in the waiting partition of a registry satisfying I1 is in
no other partition. -/
theorem disjoint_waiting {c : Clients} {id : ClientId} (hd : c.PartitionsDisjoint)
    (hw : memA c.waiting id = true) :
    memA c.selected id = false ∧ memA c.ignored id = false ∧
    memA c.done id = false ∧ c.done_and_inactive.contains id = false := by
  have h := hd id
  simp only [Clients.stateCount, hw, Bool.toNat_true] at h
  refine ⟨?_, ?_, ?_, ?_⟩
  · cases hx : memA c.selected id
    · rfl
    · rw [hx] at h; simp only [Bool.toNat_true] at h; exact absurd h (by omega)
  · cases hx : memA c.ignored id
    · rfl
    · rw [hx] at h; simp only [Bool.toNat_true] at h; exact absurd h (by omega)
  · cases hx : memA c.done id
    · rfl
    · rw [hx] at h; simp only [Bool.toNat_true] at h; exact absurd h (by omega)
  · cases hx : c.done_and_inactive.contains id
    · rfl
    · rw [hx] at h; simp only [Bool.toNat_true] at h; exact absurd h (by omega)

/-! Concrete registries used as inputs in the theorems below. -/

/-- A fresh active client with an empty, open reset inbox. -/
def clientFresh : ActiveClient := ⟨InboxState.active []⟩

/-- Registry with a single client, id 0, in the waiting partition. -/
def regWaiting : Clients := ⟨[(0, clientFresh)], [], [], [], []⟩

/-- Registry with a single client, id 0, in the selected partition. -/
def regSelected : Clients := ⟨[], [(0, clientFresh)], [], [], []⟩

/-- Registry with a single client, id 0, in the done partition. -/
def regDone : Clients := ⟨[], [], [], [(0, clientFresh)], []⟩

/-- Registry with a single client, id 0, in the done_and_inactive partition. -/
def regInactive : Clients := ⟨[], [], [], [], [0]⟩

/-- C6: the pure predicate `is_valid_transition` returns true for exactly
the six pairs of the §3 DAG — (Waiting, Selected), (Selected, Done),
(Selected, Ignored), (Done, Ignored), (Done, DoneAndInactive),
(DoneAndInactive, Ignored) — and false for every other pair. -/
theorem is_valid_transition_iff_dag (s1 s2 : ClientState) :
    is_valid_transition s1 s2 = true ↔
      (s1, s2) ∈ [(ClientState.Waiting, ClientState.Selected),
        (ClientState.Selected, ClientState.Done),
        (ClientState.Selected, ClientState.Ignored),
        (ClientState.Done, ClientState.Ignored),
        (ClientState.Done, ClientState.DoneAndInactive),
        (ClientState.DoneAndInactive, ClientState.Ignored)] := by
  cases s1 <;> cases s2 <;> decide

/-- C1, divergence of the code from the claim: `set_state` validates
`(current_state, Selected)` instead of `(current_state, new_state)`, so
the DAG transition Selected → Done, which the claim says succeeds, is
rejected with InvalidTransition on a registry whose only client is
selected. -/
theorem set_state_rejects_selected_done :
    regSelected.set_state 0 ClientState.Done =
      SetStateResult.err ⟨ClientState.Selected, ClientState.Done⟩ regSelected := by
  decide

/-- C3, divergence of the code from the claim: because `set_state`
validates `(current_state, Selected)`, the transition Done →
DoneAndInactive (which the claim says drops the timer and returns Ok
with no new timer) is rejected, and the transition DoneAndInactive →
Ignored (for which the claim says a fresh timer is created and returned)
is rejected as well, so the fresh-timer branch is unreachable. -/
theorem set_state_rejects_inactive_transitions :
    (regDone.set_state 0 ClientState.DoneAndInactive =
      SetStateResult.err ⟨ClientState.Done, ClientState.DoneAndInactive⟩ regDone) ∧
    (regInactive.set_state 0 ClientState.Ignored =
      SetStateResult.err ⟨ClientState.DoneAndInactive, ClientState.Ignored⟩ regInactive) := by
  exact ⟨by decide, by decide⟩

/-- C10: for any client currently in the Waiting partition, calling
`set_state` with new state Unknown passes the (buggy) transition validity
check, proceeds to move the client, and then hits the
`assert!(new_state != Unknown)`, i.e. the code panics instead of
returning a value. -/
theorem set_state_unknown_panics (c : Clients) (id : ClientId)
    (h : c.get_state id = ClientState.Waiting) :
    c.set_state id ClientState.Unknown = SetStateResult.panic := by
  have hw : memA c.waiting id = true := (get_state_eq_waiting_iff c id).mp h
  obtain ⟨a, ha⟩ := lookupA_eq_some_of_memA hw
  by_cases hin : c.is_inactive id
  · simp [Clients.set_state, h, hin, Clients.contains, is_valid_transition,
      Clients.new_active_client, Clients.set_state_insert]
  · simp [Clients.set_state, h, hin, Clients.contains, Clients.is_active,
      is_valid_transition, Clients.remove_active, ha, Clients.set_state_insert]

/-- Closed-form witness for C10 at a concrete registry. -/
theorem set_state_unknown_panics_witness :
    regWaiting.set_state 0 ClientState.Unknown = SetStateResult.panic :=
  set_state_unknown_panics regWaiting 0 (by decide)

/-- Closed-form witness for C6 at a concrete pair. -/
theorem is_valid_transition_iff_dag_witness :
    is_valid_transition ClientState.Waiting ClientState.Selected = true :=
  (is_valid_transition_iff_dag ClientState.Waiting ClientState.Selected).mpr (by decide)

/-! Participant phase state machine: sample values and theorems. -/

/-- Sample round parameters. -/
def sampleRoundParams : Sdk.RoundParameters := ⟨1, 2, 3, 4, 5⟩

/-- Different sample round parameters (a later round). -/
def sampleRoundParamsNew : Sdk.RoundParameters := ⟨1, 2, 3, 4, 6⟩

/-- Sample shared state holding `sampleRoundParams`. -/
def sampleShared : Sdk.SharedState := ⟨⟨1, 2⟩, 0, 0, some 8, sampleRoundParams⟩

/-- IO collaborator whose round-parameter fetch fails. -/
def ioFailingFetch : Sdk.IoState := ⟨none, fun _ => false, 0, [], 0⟩

/-- IO collaborator that fetches round parameters differing from the held ones. -/
def ioOutdatedFetch : Sdk.IoState := ⟨some sampleRoundParamsNew, fun _ => false, 0, [], 0⟩

/-- IO collaborator whose fetch succeeds with the held parameters but whose
sends always fail. -/
def ioSendFailing : Sdk.IoState := ⟨some sampleRoundParams, fun _ => true, 0, [], 0⟩

/-- Awaiting phase over the failing-fetch collaborator. -/
def phaseAwaitingFail : Sdk.Phase Sdk.Awaiting := ⟨⟨Sdk.Awaiting.mk, sampleShared⟩, ioFailingFetch⟩

/-- Awaiting phase over the outdated-fetch collaborator. -/
def phaseAwaitingOutdated : Sdk.Phase Sdk.Awaiting := ⟨⟨Sdk.Awaiting.mk, sampleShared⟩, ioOutdatedFetch⟩

/-- Awaiting phase over the failing-send collaborator. -/
def phaseAwaitingSendFail : Sdk.Phase Sdk.Awaiting := ⟨⟨Sdk.Awaiting.mk, sampleShared⟩, ioSendFailing⟩

/-- Phase-specific step of the Awaiting phase (spec §4.6: idle), used to
instantiate the `Step` trait argument at a concrete phase. -/
def awaitingStep : Sdk.Phase Sdk.Awaiting → Sdk.TransitionOutcome :=
  fun p => Sdk.TransitionOutcome.pending (Sdk.StateMachine.awaiting p)

/-- The `Into<StateMachine>` conversion of the Awaiting phase. -/
def awaitingInto : Sdk.Phase Sdk.Awaiting → Sdk.StateMachine :=
  Sdk.StateMachine.awaiting

/-- C2: the public `Phase::step` first fetches RoundParameters: a failed
fetch returns Pending with the machine unchanged; a fetch equal to the
held `round_params` delegates to the phase-specific `Step::step`; a
differing fetch transitions, in that single step, to the NewRound phase
whose held `round_params` equals the fetched value, with
`notify_new_round` invoked exactly once on the IO collaborator. -/
theorem phase_step_freshness {P : Type} (stepP : Sdk.Phase P → Sdk.TransitionOutcome)
    (intoSM : Sdk.Phase P → Sdk.StateMachine) (p : Sdk.Phase P) :
    (p.io.round_params_result = none →
      Sdk.Phase.step stepP intoSM p = Sdk.TransitionOutcome.pending (intoSM p)) ∧
    (p.io.round_params_result = some p.state.shared.round_params →
      Sdk.Phase.step stepP intoSM p = stepP p) ∧
    (∀ rp, p.io.round_params_result = some rp → rp ≠ p.state.shared.round_params →
      Sdk.Phase.step stepP intoSM p = Sdk.TransitionOutcome.complete
        (Sdk.StateMachine.newRound (Sdk.Phase.new
          (Sdk.State.new { p.state.shared with round_params := rp } Sdk.NewRound.mk)
          { p.io with new_round_notifications := p.io.new_round_notifications + 1 }))) := by
  refine ⟨?_, ?_, ?_⟩
  · intro h
    simp [Sdk.Phase.step, Sdk.Phase.check_round_freshness, h]
  · intro h
    simp [Sdk.Phase.step, Sdk.Phase.check_round_freshness, h]
  · intro rp h hne
    simp [Sdk.Phase.step, Sdk.Phase.check_round_freshness, h, hne,
      Sdk.IoState.notify_new_round, Sdk.Phase.new, Sdk.State.new]

/-- Closed-form witness for C2: the failed-fetch branch and the
outdated-fetch branch at concrete phases. -/
theorem phase_step_freshness_witness :
    (Sdk.Phase.step awaitingStep awaitingInto phaseAwaitingFail =
      Sdk.TransitionOutcome.pending (awaitingInto phaseAwaitingFail)) ∧
    (Sdk.Phase.step awaitingStep awaitingInto phaseAwaitingOutdated =
      Sdk.TransitionOutcome.complete (Sdk.StateMachine.newRound (Sdk.Phase.new
        (Sdk.State.new
          { phaseAwaitingOutdated.state.shared with round_params := sampleRoundParamsNew }
          Sdk.NewRound.mk)
        { phaseAwaitingOutdated.io with
            new_round_notifications := phaseAwaitingOutdated.io.new_round_notifications + 1 }))) :=
  ⟨(phase_step_freshness awaitingStep awaitingInto phaseAwaitingFail).1 rfl,
   (phase_step_freshness awaitingStep awaitingInto phaseAwaitingOutdated).2.2
     sampleRoundParamsNew rfl (by decide)⟩

/-- C9: when the round-parameter fetch fails (no IO progress), `step`
returns Pending holding exactly the machine it was called on, so repeated
calls with no IO progress return equal states. -/
theorem phase_step_pending_unchanged {P : Type} (stepP : Sdk.Phase P → Sdk.TransitionOutcome)
    (intoSM : Sdk.Phase P → Sdk.StateMachine) (p : Sdk.Phase P)
    (h : p.io.round_params_result = none) :
    Sdk.Phase.step stepP intoSM p = Sdk.TransitionOutcome.pending (intoSM p) := by
  simp [Sdk.Phase.step, Sdk.Phase.check_round_freshness, h]

/-- Closed-form witness for C9 at a concrete phase. -/
theorem phase_step_pending_unchanged_witness :
    Sdk.Phase.step awaitingStep awaitingInto phaseAwaitingFail =
      Sdk.TransitionOutcome.pending (awaitingInto phaseAwaitingFail) :=
  phase_step_pending_unchanged awaitingStep awaitingInto phaseAwaitingFail rfl

/-- Behaviour of the send loop of `Phase::send_message`: the phase state
is untouched, every transmitted message is the encryption of the
corresponding chunk under the current round public key, and the loop
succeeds precisely when every `send_message` call succeeds. -/
theorem send_loop_spec {P : Type} (chunks : List (List Nat)) :
    ∀ p : Sdk.Phase P,
    (p.send_loop chunks).2.state = p.state ∧
    (∃ m, m ≤ chunks.length ∧
      (p.send_loop chunks).2.io.sent_messages = p.io.sent_messages ++
        (chunks.take m).map (Sdk.encrypt p.state.shared.round_params.pk)) ∧
    ((p.send_loop chunks).1 = Except.ok () ↔ p.io.sendsOk chunks.length = true) := by
  induction chunks with
  | nil =>
    intro p
    refine ⟨rfl, ⟨0, by simp, by simp [Sdk.Phase.send_loop]⟩, ?_⟩
    simp [Sdk.Phase.send_loop, Sdk.IoState.sendsOk, Sdk.sendsOkFrom]
  | cons x rest ih =>
    intro p
    by_cases hf : p.io.send_failures p.io.sends_attempted
    · refine ⟨?_, ⟨0, by simp, ?_⟩, ?_⟩
      · simp [Sdk.Phase.send_loop, Sdk.IoState.send_message, hf]
      · simp [Sdk.Phase.send_loop, Sdk.IoState.send_message, hf]
      · simp [Sdk.Phase.send_loop, Sdk.IoState.send_message, hf,
          Sdk.IoState.sendsOk, Sdk.sendsOkFrom]
    · have hstep :
          p.send_loop (x :: rest) =
            Sdk.Phase.send_loop
              { p with io :=
                  { p.io with
                      sends_attempted := p.io.sends_attempted + 1,
                      sent_messages := p.io.sent_messages ++
                        [Sdk.encrypt p.state.shared.round_params.pk x] } }
              rest := by
        simp [Sdk.Phase.send_loop, Sdk.IoState.send_message, hf]
      set p1 : Sdk.Phase P :=
        { p with io :=
            { p.io with
                sends_attempted := p.io.sends_attempted + 1,
                sent_messages := p.io.sent_messages ++
                  [Sdk.encrypt p.state.shared.round_params.pk x] } } with hp1
      obtain ⟨hstate, ⟨m, hm, hsent⟩, hok⟩ := ih p1
      refine ⟨?_, ⟨m + 1, ?_, ?_⟩, ?_⟩
      · rw [hstep, hstate]
      · simpa using Nat.succ_le_succ hm
      · rw [hstep, hsent]
        simp [List.take_succ_cons, List.append_assoc]
      · rw [hstep, hok]
        simp [Sdk.IoState.sendsOk, Sdk.sendsOkFrom, hf]

/-- Every outcome of the send loop is `ok ()` or the `SendMessageError`. -/
theorem send_result_dichotomy (e : Except Sdk.SendMessageError Unit) :
    e = Except.ok () ∨ e = Except.error Sdk.SendMessageError.mk := by
  cases e with
  | ok v => cases v; exact Or.inl rfl
  | error err => cases err; exact Or.inr rfl

/-- C8: `Phase::send_message` encrypts each encoder chunk with the current
round public key before handing it to the IO collaborator, succeeds iff
every chunk transmission succeeds, returns the non-fatal
`SendMessageError` iff some transmission fails, and leaves the phase
state (hence the current phase) unchanged in every case. -/
theorem phase_send_message_spec {P : Type} (p : Sdk.Phase P) (chunks : List (List Nat)) :
    ((p.send_message chunks).2.state = p.state) ∧
    (∃ m, m ≤ chunks.length ∧
      (p.send_message chunks).2.io.sent_messages = p.io.sent_messages ++
        (chunks.take m).map (Sdk.encrypt p.state.shared.round_params.pk)) ∧
    ((p.send_message chunks).1 = Except.ok () ↔ p.io.sendsOk chunks.length = true) ∧
    ((p.send_message chunks).1 = Except.error Sdk.SendMessageError.mk ↔
      p.io.sendsOk chunks.length = false) := by
  obtain ⟨hstate, hsent, hok⟩ := send_loop_spec chunks p
  refine ⟨hstate, hsent, hok, ?_⟩
  rcases send_result_dichotomy (p.send_loop chunks).1 with h | h
  · rw [Sdk.Phase.send_message, h]
    rw [h] at hok
    simp only [true_iff] at hok
    rw [hok]
    simp
  · rw [Sdk.Phase.send_message, h]
    rw [h] at hok
    constructor
    · intro _
      cases hso : (p.io.sendsOk chunks.length)
      · rfl
      · exact absurd (hok.mpr hso) (by simp)
    · intro _; rfl

/-- Closed-form witness for C8: with a collaborator whose sends fail, one
chunk yields the non-fatal error with the phase state unchanged. -/
theorem phase_send_message_spec_witness :
    (phaseAwaitingSendFail.send_message [[1, 2]]).1 =
      Except.error Sdk.SendMessageError.mk ∧
    (phaseAwaitingSendFail.send_message [[1, 2]]).2.state = phaseAwaitingSendFail.state :=
  ⟨(phase_send_message_spec phaseAwaitingSendFail [[1, 2]]).2.2.2.mpr rfl,
   (phase_send_message_spec phaseAwaitingSendFail [[1, 2]]).1⟩

/-! Selector: reservoir-sampling lemmas and the C7 theorem. -/

/-- Length invariant of the reservoir loop: a buffer of size
`min amount i` after `i` inputs grows to `min amount (i + rest.length)`. -/
theorem choose_multiple_go_length (rng : Nat → Nat) (amount : Nat) :
    ∀ (rest : List ClientId) (i : Nat) (buf : List ClientId),
      buf.length = min amount i →
      (choose_multiple_go rng amount i buf rest).length = min amount (i + rest.length) := by
  intro rest
  induction rest with
  | nil => intro i buf h; simpa [choose_multiple_go] using h
  | cons x tl ih =>
    intro i buf h
    by_cases hi : i < amount
    · have h1 : (buf ++ [x]).length = min amount (i + 1) := by
        simp only [List.length_append, List.length_singleton, h]
        omega
      have := ih (i + 1) (buf ++ [x]) h1
      simp only [choose_multiple_go, if_pos hi] at *
      rw [this]
      congr 1
      simp
      omega
    · by_cases hj : rng i % (i + 1) < amount
      · have h1 : (buf.set (rng i % (i + 1)) x).length = min amount (i + 1) := by
          simp only [List.length_set, h]
          omega
        have := ih (i + 1) (buf.set (rng i % (i + 1)) x) h1
        simp only [choose_multiple_go, if_neg hi, if_pos hj] at *
        rw [this]
        congr 1
        simp
        omega
      · have h1 : buf.length = min amount (i + 1) := by rw [h]; omega
        have := ih (i + 1) buf h1
        simp only [choose_multiple_go, if_neg hi, if_neg hj] at *
        rw [this]
        congr 1
        simp
        omega

/-- Every element the reservoir loop returns comes from the buffer or the
remaining input. -/
theorem choose_multiple_go_mem (rng : Nat → Nat) (amount : Nat) :
    ∀ (rest : List ClientId) (i : Nat) (buf : List ClientId) (y : ClientId),
      y ∈ choose_multiple_go rng amount i buf rest → y ∈ buf ∨ y ∈ rest := by
  intro rest
  induction rest with
  | nil => intro i buf y h; exact Or.inl (by simpa [choose_multiple_go] using h)
  | cons x tl ih =>
    intro i buf y h
    by_cases hi : i < amount
    · simp only [choose_multiple_go, if_pos hi] at h
      rcases ih _ _ _ h with hb | ht
      · rcases List.mem_append.mp hb with h1 | h1
        · exact Or.inl h1
        · simp only [List.mem_singleton] at h1
          exact Or.inr (h1 ▸ List.mem_cons_self x tl)
      · exact Or.inr (List.mem_cons_of_mem _ ht)
    · by_cases hj : rng i % (i + 1) < amount
      · simp only [choose_multiple_go, if_neg hi, if_pos hj] at h
        rcases ih _ _ _ h with hb | ht
        · rcases List.mem_or_eq_of_mem_set hb with h1 | h1
          · exact Or.inl h1
          · exact Or.inr (h1 ▸ List.mem_cons_self x tl)
        · exact Or.inr (List.mem_cons_of_mem _ ht)
      · simp only [choose_multiple_go, if_neg hi, if_neg hj] at h
        rcases ih _ _ _ h with hb | ht
        · exact Or.inl hb
        · exact Or.inr (List.mem_cons_of_mem _ ht)

/-- The reservoir loop preserves distinctness: a duplicate-free buffer
disjoint from a duplicate-free input yields a duplicate-free result. -/
theorem choose_multiple_go_nodup (rng : Nat → Nat) (amount : Nat) :
    ∀ (rest : List ClientId) (i : Nat) (buf : List ClientId),
      buf.Nodup → rest.Nodup → (∀ y ∈ buf, y ∉ rest) →
      (choose_multiple_go rng amount i buf rest).Nodup := by
  intro rest
  induction rest with
  | nil => intro i buf hb _ _; simpa [choose_multiple_go] using hb
  | cons x tl ih =>
    intro i buf hb hr hd
    have hxb : x ∉ buf := fun hx => hd x hx (List.mem_cons_self x tl)
    have hxt : x ∉ tl := (List.nodup_cons.mp hr).1
    have hr2 : tl.Nodup := (List.nodup_cons.mp hr).2
    by_cases hi : i < amount
    · simp only [choose_multiple_go, if_pos hi]
      apply ih
      · refine List.Nodup.append hb (List.nodup_singleton x) ?_
        intro a ha hax
        simp only [List.mem_singleton] at hax
        exact hxb (hax ▸ ha)
      · exact hr2
      · intro y hy hyt
        rcases List.mem_append.mp hy with h1 | h1
        · exact hd y h1 (List.mem_cons_of_mem _ hyt)
        · simp only [List.mem_singleton] at h1
          exact hxt (h1 ▸ hyt)
    · by_cases hj : rng i % (i + 1) < amount
      · simp only [choose_multiple_go, if_neg hi, if_pos hj]
        apply ih
        · exact List.Nodup.set hb hxb
        · exact hr2
        · intro y hy hyt
          rcases List.mem_or_eq_of_mem_set hy with h1 | h1
          · exact hd y h1 (List.mem_cons_of_mem _ hyt)
          · exact hxt (h1 ▸ hyt)
      · simp only [choose_multiple_go, if_neg hi, if_neg hj]
        exact ih _ _ hb hr2 (fun y hy hyt => hd y hy (List.mem_cons_of_mem _ hyt))

/-- C7: the default selector returns a duplicate-free subset of `waiting`
of size `min min_count |waiting|`; in particular when `|waiting| <
min_count` it returns all available ids without failing. -/
theorem random_selector_select_spec (rng : Nat → Nat) (min_count : Nat)
    (waiting selected : List ClientId) (h : waiting.Nodup) :
    (RandomSelector.select rng min_count waiting selected).length =
      min min_count waiting.length ∧
    (∀ y ∈ RandomSelector.select rng min_count waiting selected, y ∈ waiting) ∧
    (RandomSelector.select rng min_count waiting selected).Nodup := by
  refine ⟨?_, ?_, ?_⟩
  · have := choose_multiple_go_length rng min_count waiting 0 [] (by simp)
    simpa [RandomSelector.select, choose_multiple] using this
  · intro y hy
    have hy0 : y ∈ choose_multiple_go rng min_count 0 [] waiting := by
      simpa [RandomSelector.select, choose_multiple] using hy
    rcases choose_multiple_go_mem rng min_count waiting 0 [] y hy0 with h1 | h1
    · simp at h1
    · exact h1
  · exact choose_multiple_go_nodup rng min_count waiting 0 [] (by simp) h (by simp)

/-- Closed-form witness for C7 at a concrete undersized and a concrete
oversized request. -/
theorem random_selector_select_spec_witness :
    ((RandomSelector.select (fun i => i * i) 2 [5, 6, 7] []).length =
      min 2 ([5, 6, 7] : List ClientId).length ∧
    (∀ y ∈ RandomSelector.select (fun i => i * i) 2 [5, 6, 7] [], y ∈ [5, 6, 7]) ∧
    (RandomSelector.select (fun i => i * i) 2 [5, 6, 7] []).Nodup) ∧
    (RandomSelector.select (fun _ => 0) 9 [5, 6] []).length =
      min 9 ([5, 6] : List ClientId).length :=
  ⟨random_selector_select_spec (fun i => i * i) 2 [5, 6, 7] [] (by decide),
   (random_selector_select_spec (fun _ => 0) 9 [5, 6] [] (by decide)).1⟩

/-! Heartbeat reset: helper lemmas and the C4 theorem. -/

theorem lookupA_eq_none_iff (m : ClientMap) (k : ClientId) :
    lookupA m k = none ↔ memA m k = false := by
  rw [← lookupA_isSome_eq_memA]
  cases h : lookupA m k <;> simp [h]

theorem get_state_eq_unknown_iff (c : Clients) (id : ClientId) :
    c.get_state id = ClientState.Unknown ↔
      memA c.waiting id = false ∧ memA c.selected id = false ∧
      memA c.ignored id = false ∧ memA c.done id = false ∧
      c.done_and_inactive.contains id = false := by
  unfold Clients.get_state
  split_ifs with w s i d dai <;> simp_all [Bool.not_eq_true]

/-- A client in the done_and_inactive partition of a registry satisfying
I1 is in none of the four active partitions. -/
theorem disjoint_inactive {c : Clients} {id : ClientId} (hd : c.PartitionsDisjoint)
    (hc : c.done_and_inactive.contains id = true) :
    memA c.waiting id = false ∧ memA c.selected id = false ∧
    memA c.ignored id = false ∧ memA c.done id = false := by
  have h := hd id
  simp only [Clients.stateCount, hc, Bool.toNat_true] at h
  refine ⟨?_, ?_, ?_, ?_⟩
  · cases hx : memA c.waiting id
    · rfl
    · rw [hx] at h; simp only [Bool.toNat_true] at h; exact absurd h (by omega)
  · cases hx : memA c.selected id
    · rfl
    · rw [hx] at h; simp only [Bool.toNat_true] at h; exact absurd h (by omega)
  · cases hx : memA c.ignored id
    · rfl
    · rw [hx] at h; simp only [Bool.toNat_true] at h; exact absurd h (by omega)
  · cases hx : memA c.done id
    · rfl
    · rw [hx] at h; simp only [Bool.toNat_true] at h; exact absurd h (by omega)

theorem get_active_eq_none_of_absent {c : Clients} {id : ClientId}
    (h1 : memA c.waiting id = false) (h2 : memA c.selected id = false)
    (h3 : memA c.ignored id = false) (h4 : memA c.done id = false) :
    c.get_active id = none := by
  simp [Clients.get_active, lookupA_eq_none_of_not_memA h1,
    lookupA_eq_none_of_not_memA h2, lookupA_eq_none_of_not_memA h3,
    lookupA_eq_none_of_not_memA h4, Option.orElse]

theorem update_active_waiting_memA (c : Clients) (id : ClientId) (a : ActiveClient)
    (j : ClientId) : memA (c.update_active id a).waiting j = memA c.waiting j := by
  unfold Clients.update_active
  split_ifs <;> simp [memA_updateA]

theorem update_active_selected_memA (c : Clients) (id : ClientId) (a : ActiveClient)
    (j : ClientId) : memA (c.update_active id a).selected j = memA c.selected j := by
  unfold Clients.update_active
  split_ifs <;> simp [memA_updateA]

theorem update_active_ignored_memA (c : Clients) (id : ClientId) (a : ActiveClient)
    (j : ClientId) : memA (c.update_active id a).ignored j = memA c.ignored j := by
  unfold Clients.update_active
  split_ifs <;> simp [memA_updateA]

theorem update_active_done_memA (c : Clients) (id : ClientId) (a : ActiveClient)
    (j : ClientId) : memA (c.update_active id a).done j = memA c.done j := by
  unfold Clients.update_active
  split_ifs <;> simp [memA_updateA]

theorem update_active_dai (c : Clients) (id : ClientId) (a : ActiveClient) :
    (c.update_active id a).done_and_inactive = c.done_and_inactive := by
  unfold Clients.update_active
  split_ifs <;> rfl

theorem get_state_of_same_partitions {c c2 : Clients}
    (h1 : ∀ j, memA c2.waiting j = memA c.waiting j)
    (h2 : ∀ j, memA c2.selected j = memA c.selected j)
    (h3 : ∀ j, memA c2.ignored j = memA c.ignored j)
    (h4 : ∀ j, memA c2.done j = memA c.done j)
    (h5 : c2.done_and_inactive = c.done_and_inactive) :
    ∀ j, c2.get_state j = c.get_state j := by
  intro j
  simp [Clients.get_state, h1 j, h2 j, h3 j, h4 j, h5]

/-- C4: `reset_heartbeat` fails with ClientNotFound when the id is absent
or inactive, with BackPressure when the reset inbox is saturated, with
Expired when the inbox is closed, succeeds otherwise, and in every case
leaves every partition and every participant state unchanged. -/
theorem reset_heartbeat_spec (c : Clients) (id : ClientId) (t : Nat)
    (hd : c.PartitionsDisjoint) :
    (∀ j, memA (c.reset_heartbeat id t).2.waiting j = memA c.waiting j) ∧
    (∀ j, memA (c.reset_heartbeat id t).2.selected j = memA c.selected j) ∧
    (∀ j, memA (c.reset_heartbeat id t).2.ignored j = memA c.ignored j) ∧
    (∀ j, memA (c.reset_heartbeat id t).2.done j = memA c.done j) ∧
    ((c.reset_heartbeat id t).2.done_and_inactive = c.done_and_inactive) ∧
    (∀ j, (c.reset_heartbeat id t).2.get_state j = c.get_state j) ∧
    ((c.contains id = false ∨ c.done_and_inactive.contains id = true) →
      (c.reset_heartbeat id t).1 = Except.error HeartBeatResetError.ClientNotFound) ∧
    (∀ a, c.get_active id = some a →
      (a.heartbeat_reset = InboxState.closed →
        (c.reset_heartbeat id t).1 = Except.error HeartBeatResetError.Expired) ∧
      (∀ pending, a.heartbeat_reset = InboxState.active pending →
        (RESET_CHANNEL_CAPACITY ≤ pending.length →
          (c.reset_heartbeat id t).1 = Except.error HeartBeatResetError.BackPressure) ∧
        (pending.length < RESET_CHANNEL_CAPACITY →
          (c.reset_heartbeat id t).1 = Except.ok ()))) := by
  have hnf : (c.contains id = false ∨ c.done_and_inactive.contains id = true) →
      c.get_active id = none := by
    rintro (hu | hin)
    · have := (get_state_eq_unknown_iff c id).mp (by
        cases hgs : c.get_state id <;> simp [Clients.contains, hgs] at hu ⊢)
      exact get_active_eq_none_of_absent this.1 this.2.1 this.2.2.1 this.2.2.2.1
    · obtain ⟨h1, h2, h3, h4⟩ := disjoint_inactive hd hin
      exact get_active_eq_none_of_absent h1 h2 h3 h4
  cases hga : c.get_active id with
  | none =>
    have hrh : c.reset_heartbeat id t =
        (Except.error HeartBeatResetError.ClientNotFound, c) := by
      simp [Clients.reset_heartbeat, hga]
    rw [hrh]
    refine ⟨fun j => rfl, fun j => rfl, fun j => rfl, fun j => rfl, rfl, fun j => rfl,
      fun _ => rfl, ?_⟩
    intro a ha
    exact absurd ha (by simp)
  | some a =>
    have hone : ∀ b, some a = some b → b = a := by
      intro b hb
      exact (Option.some.injEq _ _ |>.mp hb).symm
    cases hr : a.heartbeat_reset with
    | closed =>
      have hrh : c.reset_heartbeat id t = (Except.error HeartBeatResetError.Expired, c) := by
        simp [Clients.reset_heartbeat, hga, ActiveClient.reset_heartbeat, hr]
      rw [hrh]
      refine ⟨fun j => rfl, fun j => rfl, fun j => rfl, fun j => rfl, rfl, fun j => rfl, ?_, ?_⟩
      · intro habs; rw [hnf habs] at hga; exact absurd hga (by simp)
      · intro b hb
        cases hone b hb
        exact ⟨fun _ => rfl, fun pending hp => absurd (hr ▸ hp) (by simp)⟩
    | active pending =>
      by_cases hcap : RESET_CHANNEL_CAPACITY ≤ pending.length
      · have hrh : c.reset_heartbeat id t =
            (Except.error HeartBeatResetError.BackPressure, c) := by
          simp [Clients.reset_heartbeat, hga, ActiveClient.reset_heartbeat, hr, hcap]
        rw [hrh]
        refine ⟨fun j => rfl, fun j => rfl, fun j => rfl, fun j => rfl, rfl, fun j => rfl, ?_, ?_⟩
        · intro habs; rw [hnf habs] at hga; exact absurd hga (by simp)
        · intro b hb
          cases hone b hb
          refine ⟨fun hcl => absurd (hr ▸ hcl) (by simp), ?_⟩
          intro p2 hp2
          rw [hr] at hp2
          cases (InboxState.active.injEq _ _ |>.mp hp2).symm
          exact ⟨fun _ => rfl, fun hlt => absurd hcap (by omega)⟩
      · have hrh : c.reset_heartbeat id t =
            (Except.ok (),
              c.update_active id (⟨InboxState.active (pending ++ [t])⟩ : ActiveClient)) := by
          simp [Clients.reset_heartbeat, hga, ActiveClient.reset_heartbeat, hr, hcap]
        rw [hrh]
        refine ⟨update_active_waiting_memA c id _, update_active_selected_memA c id _,
          update_active_ignored_memA c id _, update_active_done_memA c id _,
          update_active_dai c id _,
          get_state_of_same_partitions (update_active_waiting_memA c id _)
            (update_active_selected_memA c id _) (update_active_ignored_memA c id _)
            (update_active_done_memA c id _) (update_active_dai c id _), ?_, ?_⟩
        · intro habs; rw [hnf habs] at hga; exact absurd hga (by simp)
        · intro b hb
          cases hone b hb
          refine ⟨fun hcl => absurd (hr ▸ hcl) (by simp), ?_⟩
          intro p2 hp2
          rw [hr] at hp2
          cases (InboxState.active.injEq _ _ |>.mp hp2).symm
          exact ⟨fun hge => absurd hge (by omega), fun _ => rfl⟩

/-- Disjointness of the one-waiting-client registry, used to discharge
the I1 hypotheses at concrete inputs. -/
theorem regWaiting_disjoint : regWaiting.PartitionsDisjoint := by
  intro j
  by_cases hj : (0 : ClientId) = j
  · subst hj; decide
  · have hnil : ([] : List ClientId).contains j = false := rfl
    simp only [Clients.stateCount, regWaiting, memA, hnil]
    cases (0 == j) <;> decide

/-- Closed-form witness for C4: at the one-waiting-client registry, a
reset succeeds and leaves the waiting partition unchanged; at the
inactive-client registry the claim yields ClientNotFound. -/
theorem reset_heartbeat_spec_witness :
    (regWaiting.reset_heartbeat 0 7).1 = Except.ok () ∧
    (∀ j, memA (regWaiting.reset_heartbeat 0 7).2.waiting j = memA regWaiting.waiting j) :=
  ⟨(((reset_heartbeat_spec regWaiting 0 7 regWaiting_disjoint).2.2.2.2.2.2.2
      clientFresh (by decide)).2 [] (by decide)).2 (by decide),
   (reset_heartbeat_spec regWaiting 0 7 regWaiting_disjoint).1⟩

/-! Registry invariant I1: preservation lemmas and the C5 theorem. -/

theorem set_state_insert_ne_err (c : Clients) (id : ClientId) (ns : ClientState)
    (a : ActiveClient) (t : Option HeartBeatTimer) (e : InvalidClientStateError)
    (c2 : Clients) : c.set_state_insert id ns a t ≠ SetStateResult.err e c2 := by
  cases ns <;> simp [Clients.set_state_insert]

theorem bool_eq_false_of_not_true {b : Bool} (h : ¬ b = true) : b = false := by
  cases b
  · rfl
  · exact absurd rfl h

/-- The error path of `set_state` returns the registry unchanged. -/
theorem set_state_err_state {c c1 : Clients} {id : ClientId} {ns : ClientState}
    {e : InvalidClientStateError} (h : c.set_state id ns = SetStateResult.err e c1) :
    c1 = c := by
  by_cases hv : is_valid_transition (c.get_state id) ClientState.Selected = true
  · exfalso
    simp only [Clients.set_state] at h
    rw [if_pos hv] at h
    by_cases hc : c.contains id = true
    · rw [if_pos hc] at h
      by_cases hns : ns = ClientState.DoneAndInactive
      · rw [if_pos hns] at h
        by_cases hact : c.is_active id = true
        · rw [if_pos hact] at h
          cases hra : c.remove_active id with
          | none => rw [hra] at h; simp at h
          | some pr =>
            obtain ⟨aa, cc⟩ := pr
            rw [hra] at h
            simp at h
        · rw [if_neg hact] at h; simp at h
      · rw [if_neg hns] at h
        by_cases hin : c.is_inactive id = true
        · rw [if_pos hin] at h
          simp only [Clients.new_active_client] at h
          exact set_state_insert_ne_err _ _ _ _ _ _ _ h
        · rw [if_neg hin] at h
          by_cases hact : c.is_active id = true
          · rw [if_pos hact] at h
            cases hra : c.remove_active id with
            | none => rw [hra] at h; simp at h
            | some pr =>
              obtain ⟨aa, cc⟩ := pr
              rw [hra] at h
              exact set_state_insert_ne_err _ _ _ _ _ _ _ h
          · rw [if_neg hact] at h; simp at h
    · rw [if_neg hc] at h; simp at h
  · have hvf := bool_eq_false_of_not_true hv
    simp only [Clients.set_state] at h
    rw [if_neg (by simp [hvf])] at h
    exact ((SetStateResult.err.injEq _ _ _ _).mp h).2.symm

/-- The successful path of `set_state` preserves I1. -/
theorem set_state_ok_disjoint {c c1 : Clients} {id : ClientId} {ns : ClientState}
    {t : Option HeartBeatTimer} (hd : c.PartitionsDisjoint)
    (h : c.set_state id ns = SetStateResult.ok c1 t) : c1.PartitionsDisjoint := by
  by_cases hv : is_valid_transition (c.get_state id) ClientState.Selected = true
  case neg =>
    have hvf := bool_eq_false_of_not_true hv
    simp only [Clients.set_state] at h
    rw [if_neg (by simp [hvf])] at h
    exact absurd h (by simp)
  case pos =>
  have hcur : c.get_state id = ClientState.Waiting := (is_valid_to_selected_iff _).mp hv
  have hw : memA c.waiting id = true := (get_state_eq_waiting_iff c id).mp hcur
  obtain ⟨hs, hi, hdn, hdai⟩ := disjoint_waiting hd hw
  obtain ⟨a, ha⟩ := lookupA_eq_some_of_memA hw
  have hcont : c.contains id = true := by simp [Clients.contains, hcur]
  have hact : c.is_active id = true := by simp [Clients.is_active, hcur]
  have hdai2 : id ∉ c.done_and_inactive := by simpa using hdai
  have hinact : ¬ c.is_inactive id = true := by simp [Clients.is_inactive, hdai2]
  have hra : c.remove_active id = some (a, { c with waiting := eraseA c.waiting id }) := by
    simp [Clients.remove_active, ha]
  simp only [Clients.set_state] at h
  rw [if_pos hv, if_pos hcont] at h
  by_cases hns : ns = ClientState.DoneAndInactive
  · rw [if_pos hns, if_pos hact, hra] at h
    simp only [SetStateResult.ok.injEq] at h
    obtain ⟨hc1, _⟩ := h
    rw [← hc1]
    intro j
    by_cases hj : j = id
    · subst hj
      simp [Clients.stateCount, memA_eraseA_self, hs, hi, hdn, contains_insert_self, hdai2]
    · simp only [Clients.stateCount, memA_eraseA_ne _ hj, contains_insert_ne _ hj]
      simpa [Clients.stateCount] using hd j
  · rw [if_neg hns, if_neg hinact, if_pos hact, hra] at h
    cases ns with
    | DoneAndInactive => exact absurd rfl hns
    | Unknown => simp [Clients.set_state_insert] at h
    | Waiting =>
      simp only [Clients.set_state_insert, SetStateResult.ok.injEq, reduceCtorEq,
        if_false, if_neg] at h
      obtain ⟨hc1, _⟩ := h
      rw [← hc1]
      intro j
      by_cases hj : j = id
      · subst hj
        simp [Clients.stateCount, memA_insertA_self, hs, hi, hdn, hdai, hdai2]
      · simp only [Clients.stateCount, memA_insertA_ne _ _ hj, memA_eraseA_ne _ hj]
        simpa [Clients.stateCount] using hd j
    | Selected =>
      simp only [Clients.set_state_insert, SetStateResult.ok.injEq, reduceCtorEq,
        if_false, if_neg] at h
      obtain ⟨hc1, _⟩ := h
      rw [← hc1]
      intro j
      by_cases hj : j = id
      · subst hj
        simp [Clients.stateCount, memA_insertA_self, memA_eraseA_self, hi, hdn, hdai, hdai2]
      · simp only [Clients.stateCount, memA_insertA_ne _ _ hj, memA_eraseA_ne _ hj]
        simpa [Clients.stateCount] using hd j
    | Done =>
      simp only [Clients.set_state_insert, SetStateResult.ok.injEq, reduceCtorEq,
        if_false, if_neg] at h
      obtain ⟨hc1, _⟩ := h
      rw [← hc1]
      intro j
      by_cases hj : j = id
      · subst hj
        simp [Clients.stateCount, memA_insertA_self, memA_eraseA_self, hs, hi, hdai, hdai2]
      · simp only [Clients.stateCount, memA_insertA_ne _ _ hj, memA_eraseA_ne _ hj]
        simpa [Clients.stateCount] using hd j
    | Ignored =>
      simp only [Clients.set_state_insert, SetStateResult.ok.injEq, reduceCtorEq,
        if_false, if_neg] at h
      obtain ⟨hc1, _⟩ := h
      rw [← hc1]
      intro j
      by_cases hj : j = id
      · subst hj
        simp [Clients.stateCount, memA_insertA_self, memA_eraseA_self, hs, hdn, hdai, hdai2]
      · simp only [Clients.stateCount, memA_insertA_ne _ _ hj, memA_eraseA_ne _ hj]
        simpa [Clients.stateCount] using hd j

theorem stateCount_update_active (c : Clients) (id : ClientId) (a : ActiveClient)
    (j : ClientId) : (c.update_active id a).stateCount j = c.stateCount j := by
  simp only [Clients.stateCount, update_active_waiting_memA, update_active_selected_memA,
    update_active_ignored_memA, update_active_done_memA, update_active_dai]

theorem reset_heartbeat_disjoint (c : Clients) (id : ClientId) (t : Nat)
    (hd : c.PartitionsDisjoint) : (c.reset_heartbeat id t).2.PartitionsDisjoint := by
  cases hga : c.get_active id with
  | none =>
    simp only [Clients.reset_heartbeat, hga]
    exact hd
  | some a =>
    cases hres : a.reset_heartbeat t with
    | error e =>
      simp only [Clients.reset_heartbeat, hga, hres]
      exact hd
    | ok a1 =>
      simp only [Clients.reset_heartbeat, hga, hres]
      intro j
      rw [stateCount_update_active]
      exact hd j

/-- A single registry operation preserves I1 whenever it returns. -/
theorem applyOp_disjoint {c c2 : Clients} {op : RegistryOp} (hd : c.PartitionsDisjoint)
    (h : applyOp c op = some c2) : c2.PartitionsDisjoint := by
  cases op with
  | setState id ns =>
    simp only [applyOp] at h
    cases hss : c.set_state id ns with
    | ok c3 t =>
      rw [hss] at h
      simp only [Option.some.injEq] at h
      rw [← h]
      exact set_state_ok_disjoint hd hss
    | err e c3 =>
      rw [hss] at h
      simp only [Option.some.injEq] at h
      rw [← h, set_state_err_state hss]
      exact hd
    | panic =>
      rw [hss] at h
      exact absurd h (by simp)
  | resetHeartbeat id t =>
    simp only [applyOp, Option.some.injEq] at h
    rw [← h]
    exact reset_heartbeat_disjoint c id t hd

/-- C5: after any sequence of registry operations starting from a state
satisfying I1 (every id in at most one of the five partitions), I1 still
holds. -/
theorem registry_seq_preserves_disjoint (ops : List RegistryOp) :
    ∀ c c1 : Clients, c.PartitionsDisjoint → applySeq c ops = some c1 →
      c1.PartitionsDisjoint := by
  induction ops with
  | nil =>
    intro c c1 hd h
    simp only [applySeq, Option.some.injEq] at h
    rw [← h]
    exact hd
  | cons op rest ih =>
    intro c c1 hd h
    simp only [applySeq] at h
    cases hop : applyOp c op with
    | none => rw [hop] at h; exact absurd h (by simp)
    | some c2 =>
      rw [hop] at h
      exact ih c2 c1 (applyOp_disjoint hd hop) h

/-- Registry obtained from `regWaiting` by selecting client 0 and then
resetting its heartbeat with timeout 7. -/
def regAfterOps : Clients := ⟨[], [(0, ⟨InboxState.active [7]⟩)], [], [], []⟩

/-- Closed-form witness for C5: a concrete operation sequence from the
one-waiting-client registry, with I1 discharged on both ends. -/
theorem registry_seq_preserves_disjoint_witness :
    applySeq regWaiting [RegistryOp.setState 0 ClientState.Selected,
      RegistryOp.resetHeartbeat 0 7] = some regAfterOps ∧
    regAfterOps.PartitionsDisjoint :=
  ⟨by decide,
   registry_seq_preserves_disjoint
     [RegistryOp.setState 0 ClientState.Selected, RegistryOp.resetHeartbeat 0 7]
     regWaiting regAfterOps regWaiting_disjoint (by decide)⟩
